import Mathlib

/-!
# Document session of the SDL2 + OpenGL3 text-editor demo

Shallow embedding of the file-backed document session of `src/main.cpp`:
the two file helpers `LoadFile` / `SaveFile`, the two native dialogs, the four
`File` menu handlers, the per-frame change detection that uses the
function-local `static std::string lastText`, and the helper `GetFileName` of
the window title.

Environment model.
* The text widget (`TextEditor`, third-party) is a plain string store:
  `GetText` returns what `SetText` or the user's typing put there.
* The filesystem is a map from path to contents; `contents p = none` is a file
  that `std::ifstream` cannot open, `writable p = false` one that
  `std::ofstream` cannot open.
* A native dialog is driven by `pick`, what the user would choose in it
  (`none` = cancel).
* Handlers return, next to the new state, the list of external calls they made
  (dialogs, `LoadFile`, `SaveFile`, `printf`), in program order.

One loop iteration is `frame`: the clicked `File` menu item (if any), the
change-detection block, then `editor.Render`, where the user may type.  A
minimised iteration (`continue`) touches nothing and `done` only ends the loop,
so an execution is the list of inputs of its rendered frames.
-/

namespace ImguiDemo

/-! ## Environment -/

/-- Build target: whether `_WIN32` is defined (lines 53 and 96). -/
inductive Platform
  | windows
  | other
  deriving DecidableEq, Repr

/-- The text widget, seen through `GetText` / `SetText` only. -/
structure TextEditor where
  text : String
  deriving DecidableEq, Repr

/-- Widget call `editor.GetText()`. -/
def TextEditor.GetText (editor : TextEditor) : String :=
  editor.text

/-- Widget call `editor.SetText(aText)`. -/
def TextEditor.SetText (editor : TextEditor) (aText : String) : TextEditor :=
  { editor with text := aText }

/-- The filesystem as a map from path to contents, with the paths that can be
opened for writing. -/
structure FileSystem where
  contents : String → Option String
  writable : String → Bool

/-- Effect of `std::ofstream fileStream(p)` followed by `write` and `close`. -/
def FileSystem.write (fs : FileSystem) (p : String) (content : String) : FileSystem :=
  { fs with contents := fun q => if q = p then some content else fs.contents q }

/-- External calls made by a handler, in program order. -/
inductive Call
  | openFileDialog (result : String)
  | saveFileDialog (result : String)
  | loadFile (filePath : String) (ok : Bool)
  | saveFile (filePath : String) (ok : Bool)
  | printf (msg : String)
  deriving DecidableEq, Repr

/-! ## Dialogs and file helpers (lines 52-150) -/

/-- Function `OpenFileDialog` (lines 54-73 on Windows, 99-105 elsewhere): the
chosen file name, or the empty string; elsewhere a message is printed. -/
def OpenFileDialog (plat : Platform) (pick : Option String) : String × List Call :=
  match plat with
  | Platform.windows =>
    match pick with
    | some fileName => (fileName, [])
    | none => ("", [])
  | Platform.other =>
    ("", [Call.printf "Open file dialog not implemented for this platform\n"])

/-- Function `SaveFileDialog` (lines 75-95 on Windows, 107-111 elsewhere). -/
def SaveFileDialog (plat : Platform) (pick : Option String) : String × List Call :=
  match plat with
  | Platform.windows =>
    match pick with
    | some fileName => (fileName, [])
    | none => ("", [])
  | Platform.other =>
    ("", [Call.printf "Save file dialog not implemented for this platform\n"])

/-- Function `LoadFile` (lines 115-132): returned flag and the editor after. -/
def LoadFile (filePath : String) (editor : TextEditor) (fs : FileSystem) :
    Bool × TextEditor :=
  if filePath = "" then
    (false, editor)
  else
    match fs.contents filePath with
    | none => (false, editor)
    | some content => (true, editor.SetText content)

/-- Function `SaveFile` (lines 135-150): returned flag and the filesystem after. -/
def SaveFile (filePath : String) (editor : TextEditor) (fs : FileSystem) :
    Bool × FileSystem :=
  if filePath = "" then
    (false, fs)
  else if fs.writable filePath = false then
    (false, fs)
  else
    (true, fs.write filePath editor.GetText)

/-! ## Session state and the `File` menu (lines 244-257, 333-388) -/

/-- Program state the session logic reads or writes. The field `lastText` is
the function-local static of line 468: `none` until its declaration has been
executed once. -/
structure World where
  editor : TextEditor
  currentFilePath : String
  fileModified : Bool
  lastText : Option String
  fs : FileSystem

/-- Text given to the editor at start-up (line 248). -/
def sampleText : String :=
  "/* Sample code */\n\nint main() \x7b\n\tprintf(\"Hello, world!\");\n\treturn 0;\n\x7d\n"

/-- State when the main loop is entered (lines 245-257). -/
def init (fs : FileSystem) : World :=
  { editor := { text := sampleText },
    currentFilePath := "",
    fileModified := false,
    lastText := none,
    fs := fs }

/-- Handler of `File > New` (lines 333-338). -/
def menuNew (s : World) : World × List Call :=
  ({ s with editor := s.editor.SetText "", currentFilePath := "", fileModified := false }, [])

/-- Handler of `File > Open` (lines 339-351). -/
def menuOpen (plat : Platform) (pick : Option String) (s : World) : World × List Call :=
  let dlg := OpenFileDialog plat pick
  let filePath := dlg.1
  let pre := dlg.2 ++ [Call.openFileDialog filePath]
  if filePath ≠ "" then
    let r := LoadFile filePath s.editor s.fs
    if r.1 = true then
      ({ s with editor := r.2, currentFilePath := filePath, fileModified := false },
        pre ++ [Call.loadFile filePath true])
    else
      ({ s with editor := r.2 },
        pre ++ [Call.loadFile filePath false,
                Call.printf ("Error: Could not open file " ++ filePath ++ "\n")])
  else
    (s, pre)

/-- Handler of `File > Save As...` (lines 376-388). -/
def menuSaveAs (plat : Platform) (pick : Option String) (s : World) : World × List Call :=
  let dlg := SaveFileDialog plat pick
  let filePath := dlg.1
  let pre := dlg.2 ++ [Call.saveFileDialog filePath]
  if filePath ≠ "" then
    let r := SaveFile filePath s.editor s.fs
    if r.1 = true then
      ({ s with fs := r.2, currentFilePath := filePath, fileModified := false },
        pre ++ [Call.saveFile filePath true])
    else
      ({ s with fs := r.2 },
        pre ++ [Call.saveFile filePath false,
                Call.printf ("Error: Could not save file " ++ filePath ++ "\n")])
  else
    (s, pre)

/-- Handler of `File > Save` (lines 352-375). -/
def menuSave (plat : Platform) (pick : Option String) (s : World) : World × List Call :=
  if s.currentFilePath ≠ "" then
    let r := SaveFile s.currentFilePath s.editor s.fs
    if r.1 = true then
      ({ s with fs := r.2, fileModified := false },
        [Call.saveFile s.currentFilePath true])
    else
      ({ s with fs := r.2 },
        [Call.saveFile s.currentFilePath false,
         Call.printf ("Error: Could not save file " ++ s.currentFilePath ++ "\n")])
  else
    let dlg := SaveFileDialog plat pick
    let filePath := dlg.1
    let pre := dlg.2 ++ [Call.saveFileDialog filePath]
    if filePath ≠ "" then
      let r := SaveFile filePath s.editor s.fs
      if r.1 = true then
        ({ s with fs := r.2, currentFilePath := filePath, fileModified := false },
          pre ++ [Call.saveFile filePath true])
      else
        ({ s with fs := r.2 },
          pre ++ [Call.saveFile filePath false,
                  Call.printf ("Error: Could not save file " ++ filePath ++ "\n")])
    else
      (s, pre)

/-- A clicked item of the `File` menu, with what the user would pick in the
native dialog the handler may show. -/
inductive MenuAction
  | new
  | open (pick : Option String)
  | save (pick : Option String)
  | saveAs (pick : Option String)
  deriving DecidableEq, Repr

/-- Dispatch of a clicked `File` menu item to its handler. -/
def menuStep (plat : Platform) (a : MenuAction) (s : World) : World × List Call :=
  match a with
  | MenuAction.new => menuNew s
  | MenuAction.open pick => menuOpen plat pick s
  | MenuAction.save pick => menuSave plat pick s
  | MenuAction.saveAs pick => menuSaveAs plat pick s

/-! ## Change detection and the frame (lines 467-476) -/

/-- Change-detection block (lines 467-473). The static `lastText` is
initialised from the editor the first time the block runs. -/
def changeDetection (s : World) : World :=
  let lastText :=
    match s.lastText with
    | some l => l
    | none => s.editor.GetText
  let currentText := s.editor.GetText
  if lastText ≠ currentText then
    { s with fileModified := true, lastText := some currentText }
  else
    { s with lastText := some lastText }

/-- Call `editor.Render` (line 476): the user may replace the text. -/
def renderEdit (edit : Option String) (s : World) : World :=
  match edit with
  | some t => { s with editor := s.editor.SetText t }
  | none => s

/-- Inputs of one rendered frame. -/
structure FrameInput where
  menu : Option MenuAction
  edit : Option String
  deriving DecidableEq, Repr

/-- Record of one executed menu handler: the item, the calls it made and the
editor text it left. -/
structure Entry where
  action : MenuAction
  calls : List Call
  textAfter : String
  deriving DecidableEq, Repr

/-- Executed menu handlers, most recent first. -/
abbrev History := List Entry

/-- Menu part of a frame; the handler run is recorded in the history. -/
def menuPhase (plat : Platform) (menu : Option MenuAction) (g : World × History) :
    World × History :=
  match menu with
  | none => g
  | some a =>
    let r := menuStep plat a g.1
    (r.1, { action := a, calls := r.2, textAfter := r.1.editor.GetText } :: g.2)

/-- A frame up to and including its change-detection block. -/
def frameToDetect (plat : Platform) (i : FrameInput) (g : World × History) :
    World × History :=
  let g1 := menuPhase plat i.menu g
  (changeDetection g1.1, g1.2)

/-- One rendered iteration of the main loop. -/
def frame (plat : Platform) (i : FrameInput) (g : World × History) : World × History :=
  let g1 := frameToDetect plat i g
  (renderEdit i.edit g1.1, g1.2)

/-- The main loop over the inputs of its rendered frames. -/
def runFrames (plat : Platform) : List FrameInput → World × History → World × History
  | [], g => g
  | i :: rest, g => runFrames plat rest (frame plat i g)

/-- Program start on filesystem `fs`, with an empty history. -/
def start (fs : FileSystem) : World × History :=
  (init fs, [])

/-- Filesystem with no readable file where every path can be written. -/
def emptyFs : FileSystem :=
  { contents := fun _ => none, writable := fun _ => true }

/-- Filesystem with no readable file and no writable path. -/
def lockedFs : FileSystem :=
  { contents := fun _ => none, writable := fun _ => false }

/-! ## Reading the history -/

/-- A LoadFile or SaveFile call that returned true. -/
def Call.isSuccess : Call → Bool
  | Call.loadFile _ true => true
  | Call.saveFile _ true => true
  | _ => false

/-- Whether a handler run is a New, or an Open, Save or SaveAs whose file
operation succeeded. -/
def Entry.isSnapshot (e : Entry) : Bool :=
  match e.action with
  | MenuAction.new => true
  | _ => e.calls.any Call.isSuccess

/-- Snapshot text in the sense of the specification: the editor text left by
the most recent New, successful Open, successful Save or successful SaveAs, and
the initial sample text when there was none. -/
def snapshotText : History → String
  | [] => sampleText
  | e :: rest => if e.isSnapshot = true then e.textAfter else snapshotText rest

/-- Invariant between frames: while the flag is clear, the text the next change
detection compares against is the snapshot text. -/
def CleanMeansSnapshot (g : World × History) : Prop :=
  g.1.fileModified = false →
    (match g.1.lastText with
      | some l => l
      | none => g.1.editor.GetText) = snapshotText g.2

/-- Invariant right after change detection: a clear flag means the editor holds
the snapshot text. -/
def DetectedClean (g : World × History) : Prop :=
  g.1.lastText = some g.1.editor.GetText ∧
    (g.1.fileModified = false → g.1.editor.GetText = snapshotText g.2)

/-- No Open, Save or SaveAs has succeeded since program start or since the most
recent New. -/
def noSuccessSinceNew : History → Bool
  | [] => true
  | e :: rest =>
    match e.action with
    | MenuAction.new => true
    | _ => !(e.calls.any Call.isSuccess) && noSuccessSinceNew rest

/-- Path of the first successful LoadFile call among the calls. -/
def loadedPath : List Call → Option String
  | [] => none
  | Call.loadFile p true :: _ => some p
  | _ :: rest => loadedPath rest

/-- Path of the first successful SaveFile call among the calls. -/
def savedPath : List Call → Option String
  | [] => none
  | Call.saveFile p true :: _ => some p
  | _ :: rest => savedPath rest

/-- Whether the save dialog was shown. -/
def Call.isSaveDialog : Call → Bool
  | Call.saveFileDialog _ => true
  | _ => false

/-- Path a handler run bound the session to: that of a successful Open, or of
a successful Save or SaveAs that went through the save dialog. -/
def Entry.boundTo (e : Entry) : Option String :=
  match e.action with
  | MenuAction.new => none
  | MenuAction.open _ => loadedPath e.calls
  | MenuAction.save _ => if e.calls.any Call.isSaveDialog then savedPath e.calls else none
  | MenuAction.saveAs _ => if e.calls.any Call.isSaveDialog then savedPath e.calls else none

/-- Path of the most recent successful Open or dialog-driven Save or SaveAs. -/
def lastBoundPath : History → Option String
  | [] => none
  | e :: rest =>
    match e.boundTo with
    | some p => some p
    | none => lastBoundPath rest

/-- Invariant on the bound path: it is empty exactly when nothing succeeded
since the last New, and otherwise it is the most recently bound path. -/
def PathMatchesHistory (g : World × History) : Prop :=
  (g.1.currentFilePath = "" ↔ noSuccessSinceNew g.2 = true) ∧
    (g.1.currentFilePath ≠ "" → lastBoundPath g.2 = some g.1.currentFilePath)

/-- Filesystem where only a.txt exists, with contents hello. -/
def oneFileFs : FileSystem :=
  { contents := fun q => if q = "a.txt" then some "hello" else none,
    writable := fun _ => true }

/-! ## File name of a path (lines 43-50)

A character of a Lean string stands for one `char` of the `std::string`. -/

/-- Separator characters searched by `GetFileName`: the characters of the C
string literal of line 45, slash and backslash. -/
def pathSeparators : List Char := ['/', '\\']

/-- Library call `std::string::find_last_of(chars)`: the last position holding
one of `chars`, `none` standing for `npos`. -/
def find_last_of (chars : List Char) : List Char → Option Nat
  | [] => none
  | c :: rest =>
    match find_last_of chars rest with
    | some i => some (i + 1)
    | none => if c ∈ chars then some 0 else none

/-- Library call `std::string::substr(pos)`: the characters from `pos` on; it
throws `std::out_of_range` (here `none`) when `pos` exceeds the size. -/
def substr (s : List Char) (pos : Nat) : Option (List Char) :=
  if pos ≤ s.length then some (s.drop pos) else none

/-- Function `GetFileName` (lines 44-50); `none` would be the exception of
`substr` escaping the function. -/
def GetFileName (filePath : String) : Option String :=
  match find_last_of pathSeparators filePath.data with
  | some lastSlash => (substr filePath.data (lastSlash + 1)).map String.mk
  | none => some filePath

/-! ## Theorems -/

/-! ### What the dialogs print -/

/-- The open dialog logs nothing but console output. -/
theorem mem_OpenFileDialog_calls (plat : Platform) (pick : Option String) (c : Call)
    (h : c ∈ (OpenFileDialog plat pick).2) : ∃ m, c = Call.printf m := by
  cases plat <;> cases pick <;> simp_all [OpenFileDialog]

/-- The save dialog logs nothing but console output. -/
theorem mem_SaveFileDialog_calls (plat : Platform) (pick : Option String) (c : Call)
    (h : c ∈ (SaveFileDialog plat pick).2) : ∃ m, c = Call.printf m := by
  cases plat <;> cases pick <;> simp_all [SaveFileDialog]

@[simp] theorem loadFile_not_mem_OpenFileDialog (plat : Platform) (pick : Option String)
    (p : String) (b : Bool) : Call.loadFile p b ∉ (OpenFileDialog plat pick).2 := by
  intro h
  obtain ⟨m, hm⟩ := mem_OpenFileDialog_calls plat pick _ h
  cases hm

@[simp] theorem saveFile_not_mem_OpenFileDialog (plat : Platform) (pick : Option String)
    (p : String) (b : Bool) : Call.saveFile p b ∉ (OpenFileDialog plat pick).2 := by
  intro h
  obtain ⟨m, hm⟩ := mem_OpenFileDialog_calls plat pick _ h
  cases hm

@[simp] theorem loadFile_not_mem_SaveFileDialog (plat : Platform) (pick : Option String)
    (p : String) (b : Bool) : Call.loadFile p b ∉ (SaveFileDialog plat pick).2 := by
  intro h
  obtain ⟨m, hm⟩ := mem_SaveFileDialog_calls plat pick _ h
  cases hm

@[simp] theorem saveFile_not_mem_SaveFileDialog (plat : Platform) (pick : Option String)
    (p : String) (b : Bool) : Call.saveFile p b ∉ (SaveFileDialog plat pick).2 := by
  intro h
  obtain ⟨m, hm⟩ := mem_SaveFileDialog_calls plat pick _ h
  cases hm

@[simp] theorem saveFileDialog_not_mem_SaveFileDialog (plat : Platform)
    (pick : Option String) (r : String) :
    Call.saveFileDialog r ∉ (SaveFileDialog plat pick).2 := by
  intro h
  obtain ⟨m, hm⟩ := mem_SaveFileDialog_calls plat pick _ h
  cases hm

/-! ### Frames that keep the bound path -/

@[simp] theorem changeDetection_currentFilePath (s : World) :
    (changeDetection s).currentFilePath = s.currentFilePath := by
  simp only [changeDetection]
  split_ifs <;> rfl

@[simp] theorem changeDetection_editor (s : World) :
    (changeDetection s).editor = s.editor := by
  simp only [changeDetection]
  split_ifs <;> rfl

@[simp] theorem changeDetection_fs (s : World) :
    (changeDetection s).fs = s.fs := by
  simp only [changeDetection]
  split_ifs <;> rfl

@[simp] theorem renderEdit_currentFilePath (edit : Option String) (s : World) :
    (renderEdit edit s).currentFilePath = s.currentFilePath := by
  cases edit <;> rfl

@[simp] theorem renderEdit_fileModified (edit : Option String) (s : World) :
    (renderEdit edit s).fileModified = s.fileModified := by
  cases edit <;> rfl

/-- Save on a bound document never rebinds it. -/
theorem menuSave_bound_currentFilePath (plat : Platform) (pick : Option String) (s : World)
    (h : s.currentFilePath ≠ "") :
    (menuSave plat pick s).1.currentFilePath = s.currentFilePath := by
  simp only [menuSave]
  split_ifs <;> rfl

/-- A frame whose menu item is absent or Save keeps a non-empty path. -/
theorem frame_keeps_currentFilePath (plat : Platform) (i : FrameInput) (g : World × History)
    (hi : i.menu = none ∨ ∃ q, i.menu = some (MenuAction.save q))
    (hp : g.1.currentFilePath ≠ "") :
    (frame plat i g).1.currentFilePath = g.1.currentFilePath := by
  rcases hi with h | ⟨q, h⟩
  · simp [frame, frameToDetect, menuPhase, h]
  · simp [frame, frameToDetect, menuPhase, h, menuStep, menuSave_bound_currentFilePath _ _ _ hp]

/-- Frames whose menu items are absent or Save keep a non-empty path. -/
theorem runFrames_keeps_currentFilePath (plat : Platform) (mid : List FrameInput) :
    ∀ g : World × History,
      (∀ i ∈ mid, i.menu = none ∨ ∃ q, i.menu = some (MenuAction.save q)) →
      g.1.currentFilePath ≠ "" →
      (runFrames plat mid g).1.currentFilePath = g.1.currentFilePath := by
  induction mid with
  | nil => intro g _ _; rfl
  | cons i rest ih =>
    intro g hmid hp
    have hi := hmid i (List.mem_cons_self _ _)
    have hstep := frame_keeps_currentFilePath plat i g hi hp
    have hrest := ih (frame plat i g) (fun j hj => hmid j (List.mem_cons_of_mem _ hj))
      (by rw [hstep]; exact hp)
    simp only [runFrames]
    rw [hrest, hstep]

/-- No handler changes which paths can be opened for writing. -/
theorem menuStep_writable (plat : Platform) (a : MenuAction) (s : World) :
    (menuStep plat a s).1.fs.writable = s.fs.writable := by
  have hw : ∀ q, (SaveFile q s.editor s.fs).2.writable = s.fs.writable := by
    intro q
    unfold SaveFile
    split_ifs <;> rfl
  cases a with
  | new => rfl
  | «open» pick =>
    simp only [menuStep, menuOpen]
    split_ifs <;> rfl
  | save pick =>
    simp only [menuStep, menuSave]
    split_ifs <;> simp [hw]
  | saveAs pick =>
    simp only [menuStep, menuSaveAs]
    split_ifs <;> simp [hw]

/-- No frame changes which paths can be opened for writing. -/
theorem frame_writable (plat : Platform) (i : FrameInput) (g : World × History) :
    (frame plat i g).1.fs.writable = g.1.fs.writable := by
  have hr : ∀ (e : Option String) (s : World), (renderEdit e s).fs = s.fs := by
    intro e s
    cases e <;> rfl
  cases hmenu : i.menu with
  | none => simp [frame, frameToDetect, menuPhase, hmenu, hr]
  | some a => simp [frame, frameToDetect, menuPhase, hmenu, hr, menuStep_writable]

/-- No run changes which paths can be opened for writing. -/
theorem runFrames_writable (plat : Platform) (ins : List FrameInput) :
    ∀ g : World × History, (runFrames plat ins g).1.fs.writable = g.1.fs.writable := by
  induction ins with
  | nil => intro g; rfl
  | cons i rest ih =>
    intro g
    simp only [runFrames]
    rw [ih, frame_writable]

/-- A SaveAs handler that logged a successful write to p was given p by the
dialog, p is not empty, and the session is bound to p afterwards. -/
theorem menuSaveAs_success (plat : Platform) (pick : Option String) (s : World) (p : String)
    (hok : Call.saveFile p true ∈ (menuSaveAs plat pick s).2) :
    p ≠ "" ∧ (SaveFileDialog plat pick).1 = p ∧
      (menuSaveAs plat pick s).1.currentFilePath = p ∧ s.fs.writable p = true := by
  have hw : ∀ q, (SaveFile q s.editor s.fs).1 = true → s.fs.writable q = true := by
    intro q hq
    unfold SaveFile at hq
    split_ifs at hq
    simp_all
  simp only [menuSaveAs] at hok ⊢
  split_ifs at hok ⊢ with h1 h2 <;> simp_all

/-! ### Change detection against the snapshot -/

/-- A handler run that is no snapshot leaves editor, flag and lastText alone. -/
theorem menuStep_not_snapshot (plat : Platform) (a : MenuAction) (s : World)
    (h : Entry.isSnapshot
      { action := a, calls := (menuStep plat a s).2,
        textAfter := (menuStep plat a s).1.editor.GetText } = false) :
    (menuStep plat a s).1.editor = s.editor ∧
    (menuStep plat a s).1.fileModified = s.fileModified ∧
    (menuStep plat a s).1.lastText = s.lastText := by
  cases a with
  | new => simp [Entry.isSnapshot] at h
  | «open» pick =>
    have hl : ∀ q, (LoadFile q s.editor s.fs).1 = false →
        (LoadFile q s.editor s.fs).2 = s.editor := by
      intro q hq
      unfold LoadFile at hq ⊢
      split_ifs at hq ⊢
      · rfl
      · split at hq <;> simp_all
    simp only [Entry.isSnapshot, menuStep, menuOpen] at h ⊢
    split_ifs at h ⊢ with h1 h2
    · simp [Call.isSuccess] at h
    · simp only [Bool.not_eq_true] at h2
      simp [hl _ h2]
    · simp
  | save pick =>
    simp only [Entry.isSnapshot, menuStep, menuSave] at h ⊢
    split_ifs at h ⊢ <;> simp_all [Call.isSuccess]
  | saveAs pick =>
    simp only [Entry.isSnapshot, menuStep, menuSaveAs] at h ⊢
    split_ifs at h ⊢ <;> simp_all [Call.isSuccess]

/-- No handler touches the static lastText. -/
theorem menuStep_lastText (plat : Platform) (a : MenuAction) (s : World) :
    (menuStep plat a s).1.lastText = s.lastText := by
  cases a with
  | new => rfl
  | «open» pick =>
    simp only [menuStep, menuOpen]
    split_ifs <;> rfl
  | save pick =>
    simp only [menuStep, menuSave]
    split_ifs <;> rfl
  | saveAs pick =>
    simp only [menuStep, menuSaveAs]
    split_ifs <;> rfl

/-- Change detection leaves lastText equal to the editor text. -/
theorem changeDetection_lastText (s : World) :
    (changeDetection s).lastText = some s.editor.GetText := by
  simp only [changeDetection]
  split_ifs with h
  · rfl
  · simp only [ne_eq, not_not] at h
    simp [h]

/-- Change detection on a state whose comparison text is known. -/
theorem changeDetection_clean (s : World) (h : (changeDetection s).fileModified = false) :
    s.fileModified = false ∧
      (match s.lastText with
        | some l => l
        | none => s.editor.GetText) = s.editor.GetText := by
  simp only [changeDetection] at h
  split_ifs at h with h1
  simp only [ne_eq, not_not] at h1
  exact ⟨h, h1⟩

/-- From a frame boundary to the state after change detection. -/
theorem frameToDetect_detectedClean (plat : Platform) (i : FrameInput) (g : World × History)
    (hg : CleanMeansSnapshot g) : DetectedClean (frameToDetect plat i g) := by
  obtain ⟨s, hist⟩ := g
  obtain ⟨menu, edit⟩ := i
  cases menu with
  | none =>
    refine ⟨by simp [frameToDetect, menuPhase, changeDetection_lastText], ?_⟩
    intro hclean
    simp only [frameToDetect, menuPhase] at hclean ⊢
    obtain ⟨hm, hl⟩ := changeDetection_clean s hclean
    rw [changeDetection_editor, ← hl]
    exact hg hm
  | some a =>
    refine ⟨by simp [frameToDetect, menuPhase, changeDetection_lastText], ?_⟩
    intro hclean
    simp only [frameToDetect, menuPhase] at hclean ⊢
    obtain ⟨hm, hl⟩ := changeDetection_clean _ hclean
    rw [changeDetection_editor]
    by_cases hsnap : Entry.isSnapshot
        { action := a, calls := (menuStep plat a s).2,
          textAfter := (menuStep plat a s).1.editor.GetText } = true
    · simp [snapshotText, hsnap]
    · simp only [Bool.not_eq_true] at hsnap
      obtain ⟨he, hf, hlt⟩ := menuStep_not_snapshot plat a s hsnap
      simp only [snapshotText, hsnap, Bool.false_eq_true, if_false]
      rw [hlt, he] at hl
      rw [he, ← hl]
      exact hg (by rw [← hf]; exact hm)

/-- From the state after change detection to the next frame boundary. -/
theorem frame_cleanMeansSnapshot (plat : Platform) (i : FrameInput) (g : World × History)
    (hg : CleanMeansSnapshot g) : CleanMeansSnapshot (frame plat i g) := by
  obtain ⟨hlast, hsnap⟩ := frameToDetect_detectedClean plat i g hg
  intro hclean
  cases hedit : i.edit with
  | none =>
    simp only [frame, hedit, renderEdit] at hclean ⊢
    rw [hlast]
    exact hsnap hclean
  | some t =>
    simp only [frame, hedit, renderEdit] at hclean ⊢
    rw [hlast]
    exact hsnap hclean

/-- The invariant holds at every frame boundary of a run. -/
theorem runFrames_cleanMeansSnapshot (plat : Platform) (ins : List FrameInput) :
    ∀ g : World × History, CleanMeansSnapshot g → CleanMeansSnapshot (runFrames plat ins g) := by
  induction ins with
  | nil => intro g hg; exact hg
  | cons i rest ih =>
    intro g hg
    exact ih _ (frame_cleanMeansSnapshot plat i g hg)

/-- The invariant holds at program start. -/
theorem start_cleanMeansSnapshot (fs : FileSystem) : CleanMeansSnapshot (start fs) := by
  intro _
  rfl

/-! ### The bound path against the history -/

/-- Every handler run keeps the path invariant. -/
theorem menuPhase_pathMatchesHistory (plat : Platform) (a : MenuAction) (g : World × History)
    (hg : PathMatchesHistory g) : PathMatchesHistory (menuPhase plat (some a) g) := by
  obtain ⟨s, hist⟩ := g
  obtain ⟨h1, h2⟩ := hg
  simp only at h1 h2
  cases a with
  | new =>
    simp [PathMatchesHistory, menuPhase, menuStep, menuNew, noSuccessSinceNew]
  | «open» pick =>
    cases plat <;> cases pick <;>
      simp only [PathMatchesHistory, menuPhase, menuStep, menuOpen, OpenFileDialog,
        noSuccessSinceNew, lastBoundPath, Entry.boundTo] <;>
      split_ifs <;>
      simp_all [loadedPath, Call.isSuccess]
  | save pick =>
    cases plat <;> cases pick <;>
      simp only [PathMatchesHistory, menuPhase, menuStep, menuSave, SaveFileDialog,
        noSuccessSinceNew, lastBoundPath, Entry.boundTo] <;>
      split_ifs <;>
      simp_all [savedPath, Call.isSuccess, Call.isSaveDialog]
  | saveAs pick =>
    cases plat <;> cases pick <;>
      simp only [PathMatchesHistory, menuPhase, menuStep, menuSaveAs, SaveFileDialog,
        noSuccessSinceNew, lastBoundPath, Entry.boundTo] <;>
      split_ifs <;>
      simp_all [savedPath, Call.isSuccess, Call.isSaveDialog]

/-- Every frame keeps the path invariant. -/
theorem frame_pathMatchesHistory (plat : Platform) (i : FrameInput) (g : World × History)
    (hg : PathMatchesHistory g) : PathMatchesHistory (frame plat i g) := by
  have hm : PathMatchesHistory (menuPhase plat i.menu g) := by
    cases hmenu : i.menu with
    | none => exact hg
    | some a => exact menuPhase_pathMatchesHistory plat a g hg
  simpa [PathMatchesHistory, frame, frameToDetect] using hm

/-- The path invariant holds at every frame boundary of a run. -/
theorem runFrames_pathMatchesHistory (plat : Platform) (ins : List FrameInput) :
    ∀ g : World × History, PathMatchesHistory g → PathMatchesHistory (runFrames plat ins g) := by
  induction ins with
  | nil => intro g hg; exact hg
  | cons i rest ih =>
    intro g hg
    exact ih _ (frame_pathMatchesHistory plat i g hg)

/-! ### Builds without native dialogs -/

/-- Without native dialogs no handler binds a path. -/
theorem menuStep_other_unbound (a : MenuAction) (s : World) (h : s.currentFilePath = "") :
    (menuStep Platform.other a s).1.currentFilePath = "" := by
  cases a <;>
    simp [menuStep, menuNew, menuOpen, menuSave, menuSaveAs, OpenFileDialog, SaveFileDialog, h]

/-- Without native dialogs a frame keeps the path empty. -/
theorem frame_other_unbound (i : FrameInput) (g : World × History)
    (h : g.1.currentFilePath = "") :
    (frame Platform.other i g).1.currentFilePath = "" := by
  cases hmenu : i.menu with
  | none => simp [frame, frameToDetect, menuPhase, hmenu, h]
  | some a => simp [frame, frameToDetect, menuPhase, hmenu, menuStep_other_unbound a g.1 h]

/-- Without native dialogs a run keeps the path empty. -/
theorem runFrames_other_unbound (ins : List FrameInput) :
    ∀ g : World × History, g.1.currentFilePath = "" →
      (runFrames Platform.other ins g).1.currentFilePath = "" := by
  induction ins with
  | nil => intro g hg; exact hg
  | cons i rest ih =>
    intro g hg
    exact ih _ (frame_other_unbound i g hg)

/-! ### The file name of a path -/

/-- Without a hit, no character of the string is among the searched ones. -/
theorem find_last_of_none (chars : List Char) :
    ∀ l : List Char, find_last_of chars l = none → ∀ x ∈ l, x ∉ chars := by
  intro l
  induction l with
  | nil => intro _ x hx; simp at hx
  | cons a rest ih =>
    intro h x hx
    simp only [find_last_of] at h
    cases hrest : find_last_of chars rest with
    | some j => simp [hrest] at h
    | none =>
      simp only [hrest] at h
      split_ifs at h with ha
      rcases List.mem_cons.mp hx with rfl | hx
      · exact ha
      · exact ih hrest x hx

/-- A hit splits the string at the hit: a searched character there, none after it. -/
theorem find_last_of_some (chars : List Char) :
    ∀ (l : List Char) (i : Nat), find_last_of chars l = some i →
      ∃ pre c suf, l = pre ++ c :: suf ∧ pre.length = i ∧ c ∈ chars ∧ ∀ x ∈ suf, x ∉ chars := by
  intro l
  induction l with
  | nil => intro i h; simp [find_last_of] at h
  | cons a rest ih =>
    intro i h
    simp only [find_last_of] at h
    cases hrest : find_last_of chars rest with
    | some j =>
      simp only [hrest, Option.some.injEq] at h
      obtain ⟨pre, c, suf, hl, hlen, hc, hsuf⟩ := ih j hrest
      exact ⟨a :: pre, c, suf, by simp [hl], by simp [hlen, h], hc, hsuf⟩
    | none =>
      simp only [hrest] at h
      split_ifs at h with ha
      simp only [Option.some.injEq] at h
      exact ⟨[], a, rest, rfl, by simp [← h], ha, find_last_of_none chars rest hrest⟩

/-- Shape of the result of `GetFileName` on the characters of the path. -/
theorem GetFileName_split (filePath : String) :
    ∃ pre suf : List Char, GetFileName filePath = some (String.mk suf) ∧
      filePath.data = pre ++ suf ∧
      (pre = [] ∨ ∃ q c, pre = q ++ [c] ∧ c ∈ pathSeparators) ∧
      ∀ x ∈ suf, x ∉ pathSeparators := by
  cases hfind : find_last_of pathSeparators filePath.data with
  | none =>
    refine ⟨[], filePath.data, ?_, by simp, Or.inl rfl,
      find_last_of_none pathSeparators _ hfind⟩
    simp [GetFileName, hfind]
  | some i =>
    obtain ⟨pre, c, suf, hl, hlen, hc, hsuf⟩ := find_last_of_some pathSeparators _ i hfind
    refine ⟨pre ++ [c], suf, ?_, by simp [hl], Or.inr ⟨pre, c, rfl, hc⟩, hsuf⟩
    have hdrop : List.drop (i + 1) filePath.data = suf := by
      rw [hl, ← hlen]
      simp
    have hle : i + 1 ≤ filePath.length := by
      rw [← String.length_data, hl, ← hlen]
      simp
    simp [GetFileName, hfind, substr, hle, hdrop]

/-! ### Claims -/

/-- C1: for a non-empty path that cannot be opened for reading, LoadFile
returns false with the editor untouched, and the Open handler whose dialog
returned that path leaves currentFilePath, fileModified and the editor text as
they were. -/
theorem C1_open_unreadable_unchanged (plat : Platform) (pick : Option String) (s : World)
    (p : String) (hp : p ≠ "") (hread : s.fs.contents p = none)
    (hdlg : (OpenFileDialog plat pick).1 = p) :
    (LoadFile p s.editor s.fs).1 = false ∧
    (menuOpen plat pick s).1.currentFilePath = s.currentFilePath ∧
    (menuOpen plat pick s).1.fileModified = s.fileModified ∧
    (menuOpen plat pick s).1.editor.GetText = s.editor.GetText := by
  have hl : LoadFile p s.editor s.fs = (false, s.editor) := by
    simp [LoadFile, hp, hread]
  simp [menuOpen, hdlg, hp, hl]

/-- Witness of C1 on Windows: the initial session, no readable file, the user
picks a.txt. -/
theorem C1_open_unreadable_unchanged_witness :
    (LoadFile "a.txt" (init emptyFs).editor (init emptyFs).fs).1 = false ∧
    (menuOpen Platform.windows (some "a.txt") (init emptyFs)).1.currentFilePath
      = (init emptyFs).currentFilePath ∧
    (menuOpen Platform.windows (some "a.txt") (init emptyFs)).1.fileModified
      = (init emptyFs).fileModified ∧
    (menuOpen Platform.windows (some "a.txt") (init emptyFs)).1.editor.GetText
      = (init emptyFs).editor.GetText :=
  C1_open_unreadable_unchanged Platform.windows (some "a.txt") (init emptyFs) "a.txt"
    (by decide) rfl rfl

/-- C2: in the state produced by New, and in the state produced by an Open,
Save or SaveAs handler whose LoadFile or SaveFile call returned true,
fileModified is false; this holds from every session state, hence along every
sequence of transitions. -/
theorem C2_clean_after_new_or_success (plat : Platform) (a : MenuAction) (s : World) :
    (a = MenuAction.new → (menuStep plat a s).1.fileModified = false) ∧
    (∀ p, Call.loadFile p true ∈ (menuStep plat a s).2 ∨
          Call.saveFile p true ∈ (menuStep plat a s).2 →
        (menuStep plat a s).1.fileModified = false) := by
  refine ⟨?_, ?_⟩
  · intro h
    subst h
    rfl
  · intro p h
    cases a with
    | new => simp [menuStep, menuNew]
    | «open» pick =>
      simp only [menuStep, menuOpen] at h ⊢
      split_ifs at h ⊢ <;> simp_all
    | save pick =>
      simp only [menuStep, menuSave] at h ⊢
      split_ifs at h ⊢ <;> simp_all
    | saveAs pick =>
      simp only [menuStep, menuSaveAs] at h ⊢
      split_ifs at h ⊢ <;> simp_all

/-- Witness of C2: a modified session whose SaveAs to a.txt succeeds. -/
theorem C2_clean_after_new_or_success_witness :
    (menuStep Platform.windows MenuAction.new
        { init emptyFs with fileModified := true }).1.fileModified = false ∧
    Call.saveFile "a.txt" true ∈
      (menuStep Platform.windows (MenuAction.saveAs (some "a.txt"))
        { init emptyFs with fileModified := true }).2 ∧
    (menuStep Platform.windows (MenuAction.saveAs (some "a.txt"))
        { init emptyFs with fileModified := true }).1.fileModified = false :=
  ⟨(C2_clean_after_new_or_success Platform.windows MenuAction.new
      { init emptyFs with fileModified := true }).1 rfl,
   by decide,
   (C2_clean_after_new_or_success Platform.windows (MenuAction.saveAs (some "a.txt"))
      { init emptyFs with fileModified := true }).2 "a.txt" (Or.inr (by decide))⟩

/-- C3: round trip. If SaveFile to p succeeds while the editor holds some text,
then LoadFile of p, on any filesystem that still has at p what that save left
there and into any editor, returns true and leaves exactly that text in the
editor. -/
theorem C3_save_then_load_roundtrip (p : String) (ed ed2 : TextEditor) (fs fs2 : FileSystem)
    (hsave : (SaveFile p ed fs).1 = true)
    (hsame : fs2.contents p = (SaveFile p ed fs).2.contents p) :
    (LoadFile p ed2 fs2).1 = true ∧ (LoadFile p ed2 fs2).2.GetText = ed.GetText := by
  unfold SaveFile at hsave hsame
  split_ifs at hsave hsame with h1 h2
  simp only [FileSystem.write, if_true] at hsame
  simp [LoadFile, h1, hsame, TextEditor.SetText, TextEditor.GetText]

/-- Witness of C3: the sample text saved to a.txt and loaded into an empty
editor. -/
theorem C3_save_then_load_roundtrip_witness :
    (SaveFile "a.txt" { text := sampleText } emptyFs).1 = true ∧
    (LoadFile "a.txt" { text := "" } (SaveFile "a.txt" { text := sampleText } emptyFs).2).1
      = true ∧
    (LoadFile "a.txt" { text := "" }
      (SaveFile "a.txt" { text := sampleText } emptyFs).2).2.GetText = sampleText :=
  ⟨rfl, C3_save_then_load_roundtrip "a.txt" { text := sampleText } { text := "" } emptyFs
    (SaveFile "a.txt" { text := sampleText } emptyFs).2 rfl rfl⟩

/-- C4: after a frame whose SaveAs handler wrote successfully to the dialog
result p, and any further frames whose menu item is absent or Save (edits
allowed), the session is still bound to p and a Save there shows no save
dialog, calls SaveFile with p on the editor's current text, leaves that text as
the contents of p, and is the same whatever the build and the user's dialog
choice. -/
theorem C4_save_after_saveAs_writes_bound_path (plat : Platform) (pick : Option String)
    (g : World × History) (p : String)
    (hok : Call.saveFile p true ∈ (menuSaveAs plat pick g.1).2)
    (e : Option String) (mid : List FrameInput)
    (hmid : ∀ i ∈ mid, i.menu = none ∨ ∃ q, i.menu = some (MenuAction.save q))
    (s2 : World)
    (hs2 : s2 = (runFrames plat mid
      (frame plat { menu := some (MenuAction.saveAs pick), edit := e } g)).1)
    (pick2 : Option String) :
    s2.currentFilePath = p ∧
    (∀ r, Call.saveFileDialog r ∉ (menuSave plat pick2 s2).2) ∧
    Call.saveFile p (SaveFile p s2.editor s2.fs).1 ∈ (menuSave plat pick2 s2).2 ∧
    (menuSave plat pick2 s2).1.fs = (SaveFile p s2.editor s2.fs).2 ∧
    (menuSave plat pick2 s2).1.fs.contents p = some s2.editor.GetText ∧
    (∀ plat3 pick3, menuSave plat3 pick3 s2 = menuSave plat pick2 s2) := by
  obtain ⟨hp, -, hbound, hw0⟩ := menuSaveAs_success plat pick g.1 p hok
  have hw : s2.fs.writable p = true := by
    rw [hs2, runFrames_writable, frame_writable]
    exact hw0
  have hfirst : (frame plat { menu := some (MenuAction.saveAs pick), edit := e } g).1.currentFilePath
      = p := by
    simp [frame, frameToDetect, menuPhase, menuStep, hbound]
  have hpath : s2.currentFilePath = p := by
    rw [hs2, runFrames_keeps_currentFilePath plat mid _ hmid (by rw [hfirst]; exact hp), hfirst]
  refine ⟨hpath, ?_, ?_, ?_, ?_, ?_⟩
  · intro r
    simp only [menuSave, hpath]
    split_ifs <;> simp
  · simp only [menuSave, hpath]
    split_ifs <;> simp_all
  · simp only [menuSave, hpath]
    split_ifs <;> rfl
  · simp [menuSave, hpath, hp, SaveFile, hw, FileSystem.write]
  · intro plat3 pick3
    simp [menuSave, hpath, hp]

/-- Witness of C4: on Windows the user saves the fresh document as a.txt,
types in a later frame, and chooses Save (the dialog, if shown, would give
b.txt). -/
theorem C4_save_after_saveAs_writes_bound_path_witness :
    Call.saveFile "a.txt" true ∈
      (menuSaveAs Platform.windows (some "a.txt") (start emptyFs).1).2 ∧
    (runFrames Platform.windows [{ menu := none, edit := some "x" }]
      (frame Platform.windows { menu := some (MenuAction.saveAs (some "a.txt")), edit := none }
        (start emptyFs))).1.currentFilePath = "a.txt" ∧
    (menuSave Platform.windows (some "b.txt")
      (runFrames Platform.windows [{ menu := none, edit := some "x" }]
        (frame Platform.windows { menu := some (MenuAction.saveAs (some "a.txt")), edit := none }
          (start emptyFs))).1).2 = [Call.saveFile "a.txt" true] :=
  ⟨by decide,
   (C4_save_after_saveAs_writes_bound_path Platform.windows (some "a.txt") (start emptyFs)
      "a.txt" (by decide) none [{ menu := none, edit := some "x" }]
      (by intro i hi; left; simp at hi; rw [hi]) _ rfl (some "b.txt")).1,
   by decide⟩

/-- C5: with an empty currentFilePath the Save handler is the SaveAs handler:
same resulting state (path, flag, editor, filesystem) and same calls, for
every build and dialog choice. -/
theorem C5_save_unbound_eq_saveAs (plat : Platform) (pick : Option String) (s : World)
    (h : s.currentFilePath = "") :
    menuSave plat pick s = menuSaveAs plat pick s := by
  simp [menuSave, menuSaveAs, h]

/-- Witness of C5: the fresh session on Windows, the user picks a.txt. -/
theorem C5_save_unbound_eq_saveAs_witness :
    (init emptyFs).currentFilePath = "" ∧
    menuSave Platform.windows (some "a.txt") (init emptyFs)
      = menuSaveAs Platform.windows (some "a.txt") (init emptyFs) :=
  ⟨rfl, C5_save_unbound_eq_saveAs Platform.windows (some "a.txt") (init emptyFs) rfl⟩

/-- C6: when the SaveFile call of a Save or SaveAs handler returned false,
currentFilePath and fileModified are as before the handler (and so is the
filesystem); and Save and SaveAs never change the editor text. -/
theorem C6_failed_save_unchanged (plat : Platform) (pick : Option String) (s : World) :
    (∀ p, Call.saveFile p false ∈ (menuSave plat pick s).2 →
      (menuSave plat pick s).1.currentFilePath = s.currentFilePath ∧
      (menuSave plat pick s).1.fileModified = s.fileModified ∧
      (menuSave plat pick s).1.fs = s.fs) ∧
    (∀ p, Call.saveFile p false ∈ (menuSaveAs plat pick s).2 →
      (menuSaveAs plat pick s).1.currentFilePath = s.currentFilePath ∧
      (menuSaveAs plat pick s).1.fileModified = s.fileModified ∧
      (menuSaveAs plat pick s).1.fs = s.fs) ∧
    (menuSave plat pick s).1.editor.GetText = s.editor.GetText ∧
    (menuSaveAs plat pick s).1.editor.GetText = s.editor.GetText := by
  have hfail : ∀ q, (SaveFile q s.editor s.fs).1 = false → (SaveFile q s.editor s.fs).2 = s.fs := by
    intro q hq
    unfold SaveFile at hq ⊢
    split_ifs at hq ⊢ <;> simp_all
  refine ⟨?_, ?_, ?_, ?_⟩
  · intro p hp
    simp only [menuSave] at hp ⊢
    split_ifs at hp ⊢ with h1 h2 h3 h4 <;> simp_all
  · intro p hp
    simp only [menuSaveAs] at hp ⊢
    split_ifs at hp ⊢ with h1 h2 <;> simp_all
  · simp only [menuSave]
    split_ifs <;> rfl
  · simp only [menuSaveAs]
    split_ifs <;> rfl

/-- Witness of C6: nothing can be written; Save on a modified document bound to
a.txt, and SaveAs to b.txt, both fail. -/
theorem C6_failed_save_unchanged_witness :
    Call.saveFile "a.txt" false ∈
      (menuSave Platform.windows none
        { init lockedFs with currentFilePath := "a.txt", fileModified := true }).2 ∧
    (menuSave Platform.windows none
        { init lockedFs with currentFilePath := "a.txt", fileModified := true }).1.fileModified
      = true ∧
    Call.saveFile "b.txt" false ∈
      (menuSaveAs Platform.windows (some "b.txt")
        { init lockedFs with currentFilePath := "a.txt", fileModified := true }).2 ∧
    (menuSaveAs Platform.windows (some "b.txt")
        { init lockedFs with currentFilePath := "a.txt", fileModified := true }).1.currentFilePath
      = "a.txt" :=
  ⟨by decide,
   ((C6_failed_save_unchanged Platform.windows none
      { init lockedFs with currentFilePath := "a.txt", fileModified := true }).1
      "a.txt" (by decide)).2.1,
   by decide,
   ((C6_failed_save_unchanged Platform.windows (some "b.txt")
      { init lockedFs with currentFilePath := "a.txt", fileModified := true }).2.1
      "b.txt" (by decide)).1⟩

/-- C7: in every run from program start, right after the change detection of
any frame, an editor text that differs from the snapshot text (that of the most
recent New or successful Open, Save or SaveAs, else the sample text) comes with
fileModified = true. -/
theorem C7_unsaved_edits_flagged (plat : Platform) (fs0 : FileSystem)
    (ins : List FrameInput) (i : FrameInput)
    (hdiff : (frameToDetect plat i (runFrames plat ins (start fs0))).1.editor.GetText
      ≠ snapshotText (frameToDetect plat i (runFrames plat ins (start fs0))).2) :
    (frameToDetect plat i (runFrames plat ins (start fs0))).1.fileModified = true := by
  have hD := frameToDetect_detectedClean plat i _
    (runFrames_cleanMeansSnapshot plat ins _ (start_cleanMeansSnapshot fs0))
  by_contra hne
  simp only [Bool.not_eq_true] at hne
  exact hdiff (hD.2 hne)

/-- Witness of C7: the user types x in the first frame; the second frame's
change detection raises the flag. -/
theorem C7_unsaved_edits_flagged_witness :
    (frameToDetect Platform.windows { menu := none, edit := none }
      (runFrames Platform.windows [{ menu := none, edit := some "x" }]
        (start emptyFs))).1.editor.GetText
      ≠ snapshotText (frameToDetect Platform.windows { menu := none, edit := none }
        (runFrames Platform.windows [{ menu := none, edit := some "x" }] (start emptyFs))).2 ∧
    (frameToDetect Platform.windows { menu := none, edit := none }
      (runFrames Platform.windows [{ menu := none, edit := some "x" }]
        (start emptyFs))).1.fileModified = true :=
  ⟨by decide,
   C7_unsaved_edits_flagged Platform.windows emptyFs [{ menu := none, edit := some "x" }]
     { menu := none, edit := none } (by decide)⟩

/-- C8: in every state reachable from program start by frames with New, Open,
Save or SaveAs (and edits), currentFilePath is empty exactly when no Open, Save
or SaveAs has succeeded since start or since the most recent New, and a
non-empty currentFilePath is the path of the most recent successful Open or
dialog-driven Save or SaveAs. -/
theorem C8_path_empty_iff_never_bound (plat : Platform) (fs0 : FileSystem)
    (ins : List FrameInput) :
    ((runFrames plat ins (start fs0)).1.currentFilePath = "" ↔
      noSuccessSinceNew (runFrames plat ins (start fs0)).2 = true) ∧
    ((runFrames plat ins (start fs0)).1.currentFilePath ≠ "" →
      lastBoundPath (runFrames plat ins (start fs0)).2
        = some (runFrames plat ins (start fs0)).1.currentFilePath) :=
  runFrames_pathMatchesHistory plat ins (start fs0)
    ⟨by simp [start, init, noSuccessSinceNew], by simp [start, init]⟩

/-- Witness of C8: SaveAs to a.txt, an Open of the missing b.txt that fails,
then Save: the path is a.txt, the most recently bound one. -/
theorem C8_path_empty_iff_never_bound_witness :
    (runFrames Platform.windows
      [{ menu := some (MenuAction.saveAs (some "a.txt")), edit := none },
       { menu := some (MenuAction.open (some "b.txt")), edit := some "x" },
       { menu := some (MenuAction.save none), edit := none }]
      (start emptyFs)).1.currentFilePath ≠ "" ∧
    lastBoundPath (runFrames Platform.windows
      [{ menu := some (MenuAction.saveAs (some "a.txt")), edit := none },
       { menu := some (MenuAction.open (some "b.txt")), edit := some "x" },
       { menu := some (MenuAction.save none), edit := none }]
      (start emptyFs)).2 = some "a.txt" :=
  ⟨by decide,
   (C8_path_empty_iff_never_bound Platform.windows emptyFs
      [{ menu := some (MenuAction.saveAs (some "a.txt")), edit := none },
       { menu := some (MenuAction.open (some "b.txt")), edit := some "x" },
       { menu := some (MenuAction.save none), edit := none }]).2 (by decide)⟩

/-- C9, the code at the failing inputs: after a first frame without input, a
frame in which New is chosen, or in which Open loads a.txt successfully, ends
its change detection with fileModified = true although the user typed nothing:
the handler cleared the flag, but lastText still holds the previous text. -/
theorem C9_clean_load_flagged_in_own_frame :
    (menuStep Platform.windows MenuAction.new
      (runFrames Platform.windows [{ menu := none, edit := none }]
        (start emptyFs)).1).1.fileModified = false ∧
    (frameToDetect Platform.windows { menu := some MenuAction.new, edit := none }
      (runFrames Platform.windows [{ menu := none, edit := none }]
        (start emptyFs))).1.fileModified = true ∧
    Call.loadFile "a.txt" true ∈
      (menuStep Platform.windows (MenuAction.open (some "a.txt"))
        (runFrames Platform.windows [{ menu := none, edit := none }]
          (start oneFileFs)).1).2 ∧
    (frameToDetect Platform.windows
      { menu := some (MenuAction.open (some "a.txt")), edit := none }
      (runFrames Platform.windows [{ menu := none, edit := none }]
        (start oneFileFs))).1.fileModified = true := by
  decide

/-- C10: when the dialog returns the empty string, the Open handler, the SaveAs
handler and the Save handler on an empty currentFilePath return the state they
were given (path, flag, editor text, filesystem and all) and call neither
LoadFile nor SaveFile; LoadFile and SaveFile on the empty path return false
with editor and filesystem untouched; and on a build without native dialogs
both dialogs return the empty string, so currentFilePath is empty in every
state reachable from program start. -/
theorem C10_cancelled_dialog_is_noop :
    (∀ plat pick (s : World), (OpenFileDialog plat pick).1 = "" →
      (menuOpen plat pick s).1 = s ∧
      ∀ p b, Call.loadFile p b ∉ (menuOpen plat pick s).2) ∧
    (∀ plat pick (s : World), (SaveFileDialog plat pick).1 = "" →
      (menuSaveAs plat pick s).1 = s ∧
      ∀ p b, Call.saveFile p b ∉ (menuSaveAs plat pick s).2) ∧
    (∀ plat pick (s : World), (SaveFileDialog plat pick).1 = "" → s.currentFilePath = "" →
      (menuSave plat pick s).1 = s ∧
      ∀ p b, Call.saveFile p b ∉ (menuSave plat pick s).2) ∧
    (∀ ed fs, LoadFile "" ed fs = (false, ed)) ∧
    (∀ ed fs, SaveFile "" ed fs = (false, fs)) ∧
    (∀ pick, (OpenFileDialog Platform.other pick).1 = "" ∧
      (SaveFileDialog Platform.other pick).1 = "") ∧
    (∀ fs0 ins, (runFrames Platform.other ins (start fs0)).1.currentFilePath = "") := by
  refine ⟨?_, ?_, ?_, ?_, ?_, ?_, ?_⟩
  · intro plat pick s h
    simp [menuOpen, h]
  · intro plat pick s h
    simp [menuSaveAs, h]
  · intro plat pick s h hs
    simp [menuSave, h, hs]
  · intro ed fs
    rfl
  · intro ed fs
    rfl
  · intro pick
    exact ⟨rfl, rfl⟩
  · intro fs0 ins
    exact runFrames_other_unbound ins (start fs0) rfl

/-- Witness of C10: on Windows the user cancels the Open dialog on a modified
document bound to a.txt, and cancels the Save dialogs on a fresh one. -/
theorem C10_cancelled_dialog_is_noop_witness :
    (OpenFileDialog Platform.windows none).1 = "" ∧
    (menuOpen Platform.windows none
        { init oneFileFs with currentFilePath := "a.txt", fileModified := true }).1
      = { init oneFileFs with currentFilePath := "a.txt", fileModified := true } ∧
    (SaveFileDialog Platform.windows none).1 = "" ∧
    (menuSaveAs Platform.windows none (init emptyFs)).1 = init emptyFs ∧
    (init emptyFs).currentFilePath = "" ∧
    (menuSave Platform.windows none (init emptyFs)).1 = init emptyFs :=
  ⟨rfl,
   (C10_cancelled_dialog_is_noop.1 Platform.windows none
      { init oneFileFs with currentFilePath := "a.txt", fileModified := true } rfl).1,
   rfl,
   (C10_cancelled_dialog_is_noop.2.1 Platform.windows none (init emptyFs) rfl).1,
   rfl,
   (C10_cancelled_dialog_is_noop.2.2.1 Platform.windows none (init emptyFs) rfl rfl).1⟩

/-- C11: GetFileName returns, for every path, the longest suffix without a
slash or backslash: the path is a prefix followed by the result, the prefix is
empty or ends in a slash or backslash, the result holds neither character, and
no suffix free of both is longer; so the result is the whole path when the path
has no separator and the empty string when the path ends in one. -/
theorem C11_GetFileName_longest_separator_free_suffix (filePath : String) :
    ∃ pre r : String, GetFileName filePath = some r ∧ filePath = pre ++ r ∧
      (pre = "" ∨ pre.data.getLast? = some '/' ∨ pre.data.getLast? = some '\\') ∧
      ('/' ∉ r.data ∧ '\\' ∉ r.data) ∧
      (∀ u t : String, filePath = u ++ t → '/' ∉ t.data → '\\' ∉ t.data →
        t.length ≤ r.length) ∧
      ('/' ∉ filePath.data → '\\' ∉ filePath.data → r = filePath) ∧
      (filePath.data.getLast? = some '/' ∨ filePath.data.getLast? = some '\\' → r = "") := by
  obtain ⟨pre, suf, hget, hdata, hpre, hsuf⟩ := GetFileName_split filePath
  have hsep : ∀ x : Char, x ∈ pathSeparators ↔ x = '/' ∨ x = '\\' := by
    intro x
    simp [pathSeparators]
  have hfree : '/' ∉ suf ∧ '\\' ∉ suf :=
    ⟨fun h => hsuf _ h ((hsep _).2 (Or.inl rfl)), fun h => hsuf _ h ((hsep _).2 (Or.inr rfl))⟩
  refine ⟨String.mk pre, String.mk suf, hget, ?_, ?_, hfree, ?_, ?_, ?_⟩
  · apply String.ext
    simp [hdata]
  · rcases hpre with rfl | ⟨q, c, rfl, hc⟩
    · exact Or.inl rfl
    · right
      rcases (hsep c).1 hc with rfl | rfl
      · left; simp
      · right; simp
  · intro u t hut ht1 ht2
    have hd : pre ++ suf = u.data ++ t.data := by
      rw [← hdata, hut]
      simp
    rw [String.length_mk, ← String.length_data]
    rcases hpre with rfl | ⟨q, c, rfl, hc⟩
    · simp only [List.nil_append] at hd
      rw [hd]
      simp
    · rcases List.append_eq_append_iff.1 hd with ⟨a, -, hs⟩ | ⟨b, hq, ht⟩
      · rw [hs]
        simp
      · rcases List.eq_nil_or_concat b with rfl | ⟨L, x, rfl⟩
        · simp only [List.nil_append] at ht
          rw [ht]
        · exfalso
          have hq2 : q ++ [c] = (u.data ++ L) ++ [x] := by
            rw [hq]
            simp
          have hcx : c = x := by
            have := (List.append_inj' hq2 rfl).2
            simpa using this
          have hmem : c ∈ t.data := by
            rw [ht, hcx]
            simp
          rcases (hsep c).1 hc with rfl | rfl
          · exact ht1 hmem
          · exact ht2 hmem
  · intro h1 h2
    rcases hpre with rfl | ⟨q, c, rfl, hc⟩
    · apply String.ext
      simp [hdata]
    · exfalso
      have hmem : c ∈ filePath.data := by
        rw [hdata]
        simp
      rcases (hsep c).1 hc with rfl | rfl
      · exact h1 hmem
      · exact h2 hmem
  · intro h
    rcases List.eq_nil_or_concat suf with hnil | ⟨L, x, hL⟩
    · rw [hnil]
    · exfalso
      have hlast : filePath.data.getLast? = some x := by
        rw [hdata, hL]
        simp
      have hx : x ∈ suf := by
        rw [hL]
        simp
      rw [hlast] at h
      rcases h with h | h
      · exact hfree.1 (by rw [← Option.some.inj h]; exact hx)
      · exact hfree.2 (by rw [← Option.some.inj h]; exact hx)

/-- Witness of C11: for src/main.cpp the shorter separator-free suffix .cpp is
no longer than the result; main.cpp has no separator and is returned whole; a
path ending in a backslash gives the empty string. -/
theorem C11_GetFileName_longest_separator_free_suffix_witness :
    (GetFileName "src/main.cpp" = some "main.cpp" ∧ ".cpp".length ≤ "main.cpp".length) ∧
    GetFileName "main.cpp" = some "main.cpp" ∧
    GetFileName "src\\" = some "" := by
  refine ⟨?_, ?_, ?_⟩
  · obtain ⟨pre, r, hget, -, -, -, hmax, -, -⟩ :=
      C11_GetFileName_longest_separator_free_suffix "src/main.cpp"
    have hr : r = "main.cpp" := by
      have e : GetFileName "src/main.cpp" = some "main.cpp" := by decide
      rw [e] at hget
      exact (Option.some.inj hget).symm
    subst hr
    exact ⟨hget, hmax "src/main" ".cpp" (by decide) (by decide) (by decide)⟩
  · obtain ⟨pre, r, hget, -, -, -, -, hwhole, -⟩ :=
      C11_GetFileName_longest_separator_free_suffix "main.cpp"
    rw [hget, hwhole (by decide) (by decide)]
  · obtain ⟨pre, r, hget, -, -, -, -, -, hends⟩ :=
      C11_GetFileName_longest_separator_free_suffix "src\\"
    rw [hget, hends (Or.inr (by decide))]

end ImguiDemo
